import Mathlib

/-!
Shallow embedding of the cake-genie client core, translated from the
JavaScript sources:

* `src/utils/imageCompression.js` (compression engine): `IMAGE_CONFIG`,
  `encodeWithFallback`, the iterative quality loop, and
  `compressAndOptimizeImage`.
* `src/App.jsx`: `validateFile`, `processFiles` (single-flight upload
  orchestration), `pollForData` (pricing poller), and the unmount cleanup
  effect.

Modelling conventions:

* Encoding quality is modelled in hundredths (`85` for `0.85`).  The JS
  float sequence `0.85, 0.85-0.1, ..., Math.max(0.60, q-0.1)` evaluates in
  IEEE doubles to exactly `0.75`, `0.65` and then `0.60` (the rounding of
  each subtraction lands on the representable value nearest the decimal
  result), so integer hundredths reproduce the source's control flow
  exactly.
* Browser I/O (bitmap decode, canvas encode, FileReader, storage and
  database calls, abort signals) is represented by explicit environment
  records of oracles; a `none`/`false` oracle value models the
  corresponding JS failure (an exception caught by the surrounding
  `try`/`catch`, or a falsy blob).
* The JS functions never reject: every `throw` is caught inside the
  function being modelled, so each model is a total Lean function.
-/

namespace CakeGenie

/-! ### Compression engine (`src/utils/imageCompression.js`) -/

/-- `IMAGE_CONFIG.MAX_LONG_EDGE`. -/
def MAX_LONG_EDGE : ℕ := 1800

/-- `IMAGE_CONFIG.TARGET_MAX_BYTES` (1.2 MB). -/
def TARGET_MAX_BYTES : ℕ := 1200000

/-- `IMAGE_CONFIG.QUALITY_START` (`0.85`), in hundredths. -/
def QUALITY_START : ℕ := 85

/-- `IMAGE_CONFIG.QUALITY_MIN` (`0.60`), in hundredths. -/
def QUALITY_MIN : ℕ := 60

/-- The observable part of a browser `File` passed to the compressor:
declared media type, filename and byte size. -/
structure JFile where
  type : String
  name : String
  size : ℕ
deriving DecidableEq

/-- Result of one `encodeWithFallback(canvas, quality)` call that produced
a blob: the blob's byte size and the chosen container extension
(`"webp"` or `"jpg"`). -/
structure EncRes where
  size : ℕ
  ext : String
deriving DecidableEq

/-- Environment of browser oracles for one `compressAndOptimizeImage`
call.  `decode = none` models `decodeToBitmap` throwing on both the
`createImageBitmap` path and the `<img>` fallback; `some (w, h)` gives the
decoded bitmap's pixel dimensions.  `encode q = none` models
`encodeWithFallback` returning a null blob at quality `q` (so that the
subsequent `result.blob.size` access throws); `some r` is a successful
encode. -/
structure Env where
  decode : Option (ℕ × ℕ)
  encode : ℕ → Option EncRes

/-- Identity of the returned artifact: the original input bytes passed
through unchanged, or a freshly encoded blob of the given byte size. -/
inductive BlobV where
  | orig : BlobV
  | enc (size : ℕ) : BlobV
deriving DecidableEq

/-- The object returned by `compressAndOptimizeImage`.  JS object fields
that are present only on some return paths are modelled as `Option`
fields defaulting to `none` (absent).  The field `ratio` models the JS
field named `compressionRatio`. -/
structure CompressResult where
  blob : BlobV
  ext : String
  ratio : ℚ
  originalSize : Option ℕ := none
  compressedSize : Option ℕ := none
  dimensions : Option (ℕ × ℕ) := none
  originalDimensions : Option (ℕ × ℕ) := none
  error : Option String := none
deriving DecidableEq

/-- JS `str.split('.')` over the character list: splits at every `'.'`,
keeping empty segments; the empty string yields `[""]`. -/
def splitDot : List Char → List (List Char)
  | [] => [[]]
  | c :: rest =>
    let r := splitDot rest
    if c = '.' then [] :: r
    else
      match r with
      | [] => [[c]]
      | seg :: segs => (c :: seg) :: segs

/-- Last element of a nonempty list of segments (JS `Array.prototype.pop`
on the result of `split`, which is never empty). -/
def lastD : List (List Char) → List Char
  | [] => []
  | [x] => x
  | _ :: x :: xs => lastD (x :: xs)

/-- JS `str.startsWith(p)`. -/
def strStartsWith (s p : String) : Bool := p.data.isPrefixOf s.data

/-- `(name.split('.').pop() || dflt).toLowerCase()`: the last
dot-separated segment of the filename, lowercased, with `dflt` substituted
when that segment is the empty string (JS `||` on a falsy string). -/
def extFrom (name dflt : String) : String :=
  let last := lastD (splitDot name.data)
  String.mk ((if last = [] then dflt.data else last).map Char.toLower)

/-- Target dimension for one axis:
`Math.max(1, Math.round(src * Math.min(1, MAX_LONG_EDGE / longEdge)))`,
computed in exact rationals. -/
def dstDim (src longEdge : ℕ) : ℕ :=
  max 1 (round ((src : ℚ) * min 1 ((MAX_LONG_EDGE : ℚ) / (longEdge : ℚ)))).toNat

/-- The iterative encode loop of `compressAndOptimizeImage`:

```
let quality = QUALITY_START; let tries = 0;
do {
  result = await encodeWithFallback(canvas, quality);
  if (result.blob.size <= TARGET_MAX_BYTES || quality <= QUALITY_MIN) break;
  quality = Math.max(QUALITY_MIN, quality - 0.1);
  tries++;
} while (tries < 5);
```

`remaining` is the fuel `4 - tries`, so the `remaining = 0` leaf is
exactly the source's `tries < 5` test failing after the fifth body.
Returns the number of encode attempts performed, paired with `none` when
an attempt produced a null blob (the JS `result.blob.size` access then
throws into the outer catch) or `some (r, q)` for the returned encode `r`
and the quality `q` it used. -/
def encodeLoop (enc : ℕ → Option EncRes) : ℕ → ℕ → ℕ × Option (EncRes × ℕ)
  | quality, remaining =>
    match enc quality with
    | none => (1, none)
    | some r =>
      if r.size ≤ TARGET_MAX_BYTES ∨ quality ≤ QUALITY_MIN then
        (1, some (r, quality))
      else
        match remaining with
        | 0 => (1, some (r, quality))
        | rem + 1 =>
          let next := encodeLoop enc (max QUALITY_MIN (quality - 10)) rem
          (next.1 + 1, next.2)

/-- `compressAndOptimizeImage(file)`, instrumented with the number of
encode attempts performed (second component).  Mirrors the source's
branch order: non-image pass-through, GIF pass-through, decode (failure
caught), skip when already small, then resize and the iterative encode
loop, with the outer `catch` returning the original bytes with ratio 1
and an error marker. -/
def compressAndOptimizeImage (env : Env) (file : JFile) : CompressResult × ℕ :=
  if strStartsWith file.type "image/" = false then
    ({ blob := .orig, ext := extFrom file.name "bin", ratio := 1 }, 0)
  else if file.type = "image/gif" then
    ({ blob := .orig, ext := "gif", ratio := 1 }, 0)
  else
    match env.decode with
    | none =>
      ({ blob := .orig, ext := extFrom file.name "jpg", ratio := 1,
         error := some "decode failed" }, 0)
    | some (srcW, srcH) =>
      if max srcW srcH ≤ MAX_LONG_EDGE ∧ file.size ≤ TARGET_MAX_BYTES then
        ({ blob := .orig, ext := extFrom file.name "jpg", ratio := 1 }, 0)
      else
        match encodeLoop env.encode QUALITY_START 4 with
        | (attempts, none) =>
          ({ blob := .orig, ext := extFrom file.name "jpg", ratio := 1,
             error := some "encode failed" }, attempts)
        | (attempts, some (r, _q)) =>
          ({ blob := .enc r.size, ext := r.ext,
             ratio := (file.size : ℚ) / (r.size : ℚ),
             originalSize := some file.size,
             compressedSize := some r.size,
             dimensions := some (dstDim srcW (max srcW srcH), dstDim srcH (max srcW srcH)),
             originalDimensions := some (srcW, srcH) }, attempts)


/-! ### File validation (`validateFile` in `src/App.jsx`) -/

/-- `MAX_SIZE_MB` in `validateFile`. -/
def MAX_SIZE_MB : ℕ := 10

/-- `MIN_DIMENSION` in `validateFile`. -/
def MIN_DIMENSION : ℕ := 200

/-- A candidate file as seen by the orchestrator: declared media type,
name, byte size, and the pixel dimensions its bytes decode to. -/
structure ImgFile where
  type : String
  name : String
  size : ℕ
  width : ℕ
  height : ℕ
deriving DecidableEq

/-- Browser oracles for one `validateFile` call: whether the `FileReader`
read succeeds and whether the `Image` element load succeeds (their
failures resolve the distinct error strings in the source). -/
structure VEnv where
  readerOk : Bool
  imageOk : Bool
deriving DecidableEq

/-- `validateFile(file)`: returns `none` when the file passes, or
`some msg` with the source's error message.  Checks run in source order:
media type, byte size, then (through the async reader/image load) the
decoded pixel dimensions. -/
def validateFile (env : VEnv) (file : ImgFile) : Option String :=
  if strStartsWith file.type "image/" = false then
    some "Invalid file type. Please upload an image."
  else if MAX_SIZE_MB * 1024 * 1024 < file.size then
    some "File is too large. Maximum size is 10MB."
  else if env.readerOk = false then
    some "Failed to read file."
  else if env.imageOk = false then
    some "Could not read image dimensions."
  else if file.width < MIN_DIMENSION ∨ file.height < MIN_DIMENSION then
    some "Image is too small. Minimum dimensions are 200x200px."
  else
    none

/-! ### Upload orchestration (`processFiles` in `src/App.jsx`) -/

/-- Mutable component refs relevant to the single-flight guard. -/
structure AppState where
  isProcessingUpload : Bool
deriving DecidableEq

/-- Externally visible side effects started by one `processFiles` run, in
order: running validation, running the compressor, the storage `upload`
call, the database `insert` call, surfacing an error message, and
building the local preview. -/
inductive Action where
  | validateA : Action
  | compressA : Action
  | storagePut : Action
  | dbInsert : Action
  | setErrorA (msg : String) : Action
  | previewA : Action
deriving DecidableEq

/-- Oracles for one `processFiles` run: the validation environment,
the abort-signal value at each of the source's cancellation checkpoints
(before compression, after compression, after upload, and inside the
catch handler), and whether the storage upload, database insert and
preview read succeed. -/
structure PEnv where
  venv : VEnv
  abortedAfterStart : Bool
  abortedAfterCompress : Bool
  abortedAfterUpload : Bool
  abortedAtCatch : Bool
  storageOk : Bool
  dbOk : Bool
  previewOk : Bool
deriving DecidableEq

/-- The `catch (uploadError)` handler of `processFiles`: if the attempt
was not aborted it surfaces the error state and tries to build a preview
from the original file, surfacing a generic error when that also fails. -/
def catchTrace (env : PEnv) : List Action :=
  if env.abortedAtCatch then []
  else if env.previewOk then [Action.previewA]
  else [Action.setErrorA "Failed to process image. Please try again."]

/-- `processFiles(files)`: returns the final ref state and the ordered
side-effect trace of the run.  Mirrors the source control flow: the
single-flight guard (`isProcessingUpload.current`) drops the call as a
no-op; otherwise the flag is set, `files[0]` is taken (absent file ends
the run), validation runs before the `try` block, the `try` block checks
the abort signal around compression and upload, `uploadToSupabase`
performs the storage put and then the database insert (each may throw
into the catch handler, which sets an error and builds a fallback
preview), and the `finally` block resets `isProcessingUpload`. -/
def processFiles (env : PEnv) (s : AppState) (files : List ImgFile) :
    AppState × List Action :=
  if s.isProcessingUpload then (s, [])
  else
    match files.head? with
    | none => (⟨false⟩, [])
    | some file =>
      match validateFile env.venv file with
      | some msg => (⟨false⟩, [Action.validateA, Action.setErrorA msg])
      | none =>
        if env.abortedAfterStart then (⟨false⟩, [Action.validateA])
        else if env.abortedAfterCompress then
          (⟨false⟩, [Action.validateA, Action.compressA])
        else if env.storageOk = false then
          (⟨false⟩, [Action.validateA, Action.compressA, Action.storagePut,
            Action.setErrorA "Upload failed. Please try again."] ++ catchTrace env)
        else if env.dbOk = false then
          (⟨false⟩, [Action.validateA, Action.compressA, Action.storagePut,
            Action.dbInsert,
            Action.setErrorA "Upload failed. Please try again."] ++ catchTrace env)
        else if env.abortedAfterUpload then
          (⟨false⟩, [Action.validateA, Action.compressA, Action.storagePut,
            Action.dbInsert])
        else
          (⟨false⟩, [Action.validateA, Action.compressA, Action.storagePut,
            Action.dbInsert, Action.previewA])

/-! ### Pricing poller (`pollForData` in `handleCalculatePrice`,
`src/App.jsx`) -/

/-- `maxAttempts` in `handleCalculatePrice`. -/
def maxAttempts : ℕ := 8

/-- Delay, in milliseconds, of every `setTimeout(pollForData, 5000)`. -/
def POLL_DELAY_MS : ℕ := 5000

/-- Outcome of one `fetchPricingData(rowid)` read: the call threw, the
record or its `priceaddon` field is null/undefined, or `priceaddon`
carries a value. -/
inductive ReadOutcome where
  | throwE : ReadOutcome
  | noData : ReadOutcome
  | price (v : ℤ) : ReadOutcome
deriving DecidableEq

/-- The terminal payload a polling run leaves behind: the `hasRealData`
and `needsRefresh` flags of the final `setPriceResult`, the final
`processingState`, and the surfaced `priceaddon` value if any. -/
structure PollEnd where
  hasRealData : Bool
  needsRefresh : Bool
  procState : String
  priceAddon : Option ℤ
deriving DecidableEq

/-- One polling run from the read numbered `attempts` (the counter value
after the `attempts++` at the top of `pollForData`).  `remaining` is the
fuel `maxAttempts - attempts`, so the `0` leaf is exactly the source's
`attempts < maxAttempts` test failing.  Returns the index of the last
read issued (= the total number of reads, since reads are numbered
consecutively from 1) and the terminal payload. -/
def pollGo (read : ℕ → ReadOutcome) : ℕ → ℕ → ℕ × PollEnd
  | attempts, 0 =>
    match read attempts with
    | .price v => (attempts, ⟨true, false, "complete", some v⟩)
    | .noData => (attempts, ⟨false, true, "complete", none⟩)
    | .throwE => (attempts, ⟨false, true, "error", none⟩)
  | attempts, rem + 1 =>
    match read attempts with
    | .price v => (attempts, ⟨true, false, "complete", some v⟩)
    | .noData => pollGo read (attempts + 1) rem
    | .throwE => pollGo read (attempts + 1) rem

/-- A full polling run as started by `handleCalculatePrice`: the first
`pollForData` call increments `attempts` from 0 to 1. -/
def pollRun (read : ℕ → ReadOutcome) : ℕ × PollEnd :=
  pollGo read 1 (maxAttempts - 1)

/-- Wall-clock time (ms after `handleCalculatePrice` scheduled the first
poll) at which read number `n` fires: the initial
`setTimeout(pollForData, 5000)` plus one 5000 ms reschedule per
subsequent read. -/
def readTime : ℕ → ℕ
  | 0 => 0
  | n + 1 => readTime n + POLL_DELAY_MS

/-! ### Unmount cleanup (`useEffect` teardown in `src/App.jsx`) -/

/-- The component refs touched (or not) by the unmount cleanup effect,
together with the poller's pending timer: `some n` records a scheduled
`pollForData` callback whose `attempts++` will set the counter to `n`. -/
structure AppRefs where
  searchAbortActive : Bool
  uploadAbortActive : Bool
  isProcessingUpload : Bool
  pendingSearchQuery : Option String
  pendingPollTimer : Option ℕ
deriving DecidableEq

/-- The unmount cleanup effect: aborts and clears both abort controllers
and resets the two refs.  No `clearTimeout` appears anywhere in the
component, and no timer id is stored in any ref, so the poller's pending
timer is left untouched. -/
def unmountCleanup (r : AppRefs) : AppRefs :=
  { searchAbortActive := false
    uploadAbortActive := false
    isProcessingUpload := false
    pendingSearchQuery := none
    pendingPollTimer := r.pendingPollTimer }

/-- Number of poll reads that fire after teardown: if a pending
`pollForData` timer survives the unmount cleanup it fires and, since
`pollForData` consults no cancellation flag, runs the remaining polling
loop to completion. -/
def readsIssuedAfterTeardown (read : ℕ → ReadOutcome) (r : AppRefs) : ℕ :=
  match (unmountCleanup r).pendingPollTimer with
  | none => 0
  | some n => (pollGo read n (maxAttempts - n)).1 + 1 - n


/-! ### Lemmas about the encode loop -/

/-- Starting with fuel `rem`, the loop performs at most `rem + 1` encode
attempts. -/
lemma encodeLoop_count_le (enc : ℕ → Option EncRes) :
    ∀ rem q, (encodeLoop enc q rem).1 ≤ rem + 1 := by
  intro rem
  induction rem with
  | zero =>
    intro q
    unfold encodeLoop
    cases h : enc q with
    | none => simp [h]
    | some r => simp only [h]; split <;> simp
  | succ rem ih =>
    intro q
    unfold encodeLoop
    cases h : enc q with
    | none => simp [h]
    | some r =>
      simp only [h]
      split
      · simp
      · simpa using Nat.succ_le_succ (ih (max QUALITY_MIN (q - 10)))

/-- If the starting quality is between the floor and `floor + 10 * fuel`,
every successful loop exit is an accepted result: its size met the byte
target or its quality had reached the floor, and the final quality stayed
within `[QUALITY_MIN, q]`. -/
lemma encodeLoop_accepts (enc : ℕ → Option EncRes) :
    ∀ rem q, QUALITY_MIN ≤ q → q ≤ QUALITY_MIN + 10 * rem →
      ∀ r q', (encodeLoop enc q rem).2 = some (r, q') →
        (r.size ≤ TARGET_MAX_BYTES ∨ q' = QUALITY_MIN) ∧
          QUALITY_MIN ≤ q' ∧ q' ≤ q := by
  intro rem
  induction rem with
  | zero =>
    intro q hlo hhi r q' hres
    unfold encodeLoop at hres
    cases h : enc q with
    | none => simp [h] at hres
    | some r0 =>
      simp only [h] at hres
      split at hres
      · obtain ⟨rfl, rfl⟩ : r0 = r ∧ q = q' := by
          simpa using hres
        refine ⟨Or.inr ?_, by omega, le_rfl⟩
        omega
      · rename_i hcond
        exfalso
        exact hcond (Or.inr (by omega))
  | succ rem ih =>
    intro q hlo hhi r q' hres
    unfold encodeLoop at hres
    cases h : enc q with
    | none => simp [h] at hres
    | some r0 =>
      simp only [h] at hres
      split at hres
      · rename_i hcond
        obtain ⟨rfl, rfl⟩ : r0 = r ∧ q = q' := by
          simpa using hres
        rcases hcond with hsz | hq
        · exact ⟨Or.inl hsz, by omega, le_rfl⟩
        · exact ⟨Or.inr (by omega), by omega, le_rfl⟩
      · rename_i hcond
        simp only [] at hres
        have hq : QUALITY_MIN < q := by
          rcases Nat.lt_or_ge QUALITY_MIN q with hlt | hge
          · exact hlt
          · exact absurd (Or.inr (by omega)) hcond
        have h2 := ih (max QUALITY_MIN (q - 10)) (le_max_left _ _)
          (by unfold QUALITY_MIN at *; omega) r q' hres
        exact ⟨h2.1, h2.2.1, le_trans h2.2.2 (by omega)⟩

/-- If the encoder yields a blob at every quality at or above the floor,
the loop yields a result. -/
lemma encodeLoop_isSome (enc : ℕ → Option EncRes)
    (henc : ∀ q, QUALITY_MIN ≤ q → (enc q).isSome = true) :
    ∀ rem q, QUALITY_MIN ≤ q → ((encodeLoop enc q rem).2).isSome = true := by
  intro rem
  induction rem with
  | zero =>
    intro q hq
    unfold encodeLoop
    cases h : enc q with
    | none => exact absurd (henc q hq) (by simp [h])
    | some r0 => simp only [h]; split <;> simp
  | succ rem ih =>
    intro q hq
    unfold encodeLoop
    cases h : enc q with
    | none => exact absurd (henc q hq) (by simp [h])
    | some r0 =>
      simp only [h]
      split
      · simp
      · simpa using ih (max QUALITY_MIN (q - 10)) (le_max_left _ _)

/-! ### Claim theorems -/

/-- Claim C1: for every input that reaches the iterative encode stage of
`compressAndOptimizeImage`, the encode loop starts at quality 0.85,
accepts a result as soon as its byte size is at most 1,200,000 or the
quality has reached the floor 0.60, otherwise lowers quality by 0.10
(never below 0.60) and retries; the whole function performs at most 5
encode attempts, and whenever the encoder yields blobs at every quality
down to the floor the loop yields a result even if the byte target is
missed. -/
theorem c1_encode_loop_bounded :
    (∀ env file, (compressAndOptimizeImage env file).2 ≤ 5) ∧
    (∀ (enc : ℕ → Option EncRes) (r : EncRes) (q : ℕ),
        (encodeLoop enc QUALITY_START 4).2 = some (r, q) →
        (r.size ≤ TARGET_MAX_BYTES ∨ q = QUALITY_MIN) ∧
          QUALITY_MIN ≤ q ∧ q ≤ QUALITY_START) ∧
    (∀ enc : ℕ → Option EncRes,
        (∀ q, QUALITY_MIN ≤ q → (enc q).isSome = true) →
        ((encodeLoop enc QUALITY_START 4).2).isSome = true) := by
  refine ⟨?_, ?_, ?_⟩
  · intro env file
    rcases hE : encodeLoop env.encode QUALITY_START 4 with ⟨n, res⟩
    have hn : n ≤ 5 := by
      have h5 := encodeLoop_count_le env.encode 4 QUALITY_START
      rw [hE] at h5
      simpa using h5
    unfold compressAndOptimizeImage
    rw [hE]
    split
    · simp
    split
    · simp
    rcases hdec : env.decode with _ | ⟨w, h⟩ <;> simp only [hdec]
    · simp
    split
    · simp
    cases res <;> simp [hn]
  · intro enc r q hres
    exact encodeLoop_accepts enc 4 QUALITY_START (by norm_num [QUALITY_MIN, QUALITY_START])
      (by norm_num [QUALITY_MIN, QUALITY_START]) r q hres
  · intro enc henc
    exact encodeLoop_isSome enc henc 4 QUALITY_START
      (by norm_num [QUALITY_MIN, QUALITY_START])

/-- Witness for C1 at a 2 MB-per-encode oracle (the loop walks
0.85 → 0.75 → 0.65 → 0.60 and accepts at the floor). -/
theorem c1_encode_loop_bounded_witness :
    (compressAndOptimizeImage ⟨some (3000, 2000), fun _ => some ⟨2000000, "webp"⟩⟩
        ⟨"image/jpeg", "big.jpg", 4000000⟩).2 ≤ 5 ∧
    (((⟨2000000, "webp"⟩ : EncRes).size ≤ TARGET_MAX_BYTES ∨ (60 : ℕ) = QUALITY_MIN) ∧
      QUALITY_MIN ≤ 60 ∧ (60 : ℕ) ≤ QUALITY_START) ∧
    ((encodeLoop (fun _ => some ⟨2000000, "webp"⟩) QUALITY_START 4).2).isSome = true :=
  ⟨c1_encode_loop_bounded.1 ⟨some (3000, 2000), fun _ => some ⟨2000000, "webp"⟩⟩
      ⟨"image/jpeg", "big.jpg", 4000000⟩,
   c1_encode_loop_bounded.2.1 (fun _ => some ⟨2000000, "webp"⟩) ⟨2000000, "webp"⟩ 60
      (by decide),
   c1_encode_loop_bounded.2.2 (fun _ => some ⟨2000000, "webp"⟩) (fun q hq => rfl)⟩

/-- Claim C2: a non-GIF image whose decoded long edge is at most 1800 px
and whose byte size is at most 1,200,000 bytes skips compression
entirely: the original bytes come back unchanged with ratio 1, no error
marker, and zero encode attempts. -/
theorem c2_skip_small (env : Env) (file : JFile) (w h : ℕ)
    (himg : strStartsWith file.type "image/" = true)
    (hgif : file.type ≠ "image/gif")
    (hdec : env.decode = some (w, h))
    (hedge : max w h ≤ MAX_LONG_EDGE)
    (hsize : file.size ≤ TARGET_MAX_BYTES) :
    (compressAndOptimizeImage env file).1.blob = BlobV.orig ∧
    (compressAndOptimizeImage env file).1.ratio = 1 ∧
    (compressAndOptimizeImage env file).1.error = none ∧
    (compressAndOptimizeImage env file).2 = 0 := by
  simp [compressAndOptimizeImage, himg, hgif, hdec, hedge, hsize]

/-- Witness for C2: a 500 by 800, 1000-byte PNG. -/
theorem c2_skip_small_witness :
    (compressAndOptimizeImage ⟨some (500, 800), fun _ => some ⟨1, "webp"⟩⟩
        ⟨"image/png", "cake.png", 1000⟩).1.blob = BlobV.orig ∧
    (compressAndOptimizeImage ⟨some (500, 800), fun _ => some ⟨1, "webp"⟩⟩
        ⟨"image/png", "cake.png", 1000⟩).1.ratio = 1 ∧
    (compressAndOptimizeImage ⟨some (500, 800), fun _ => some ⟨1, "webp"⟩⟩
        ⟨"image/png", "cake.png", 1000⟩).1.error = none ∧
    (compressAndOptimizeImage ⟨some (500, 800), fun _ => some ⟨1, "webp"⟩⟩
        ⟨"image/png", "cake.png", 1000⟩).2 = 0 :=
  c2_skip_small _ _ 500 800 (by decide) (by decide) rfl (by decide) (by decide)

/-- Claim C3: when decoding fails, or the encode loop fails to produce a
blob, `compressAndOptimizeImage` falls back to the original bytes with
ratio 1 and an attached error marker.  The model is a total function —
every `throw` in the source is caught inside the function, so it never
rejects and a compression failure never blocks the upload. -/
theorem c3_failure_fallback (env : Env) (file : JFile)
    (himg : strStartsWith file.type "image/" = true)
    (hgif : file.type ≠ "image/gif")
    (hfail : env.decode = none ∨
      (∃ w h, env.decode = some (w, h) ∧
        ¬(max w h ≤ MAX_LONG_EDGE ∧ file.size ≤ TARGET_MAX_BYTES) ∧
        (encodeLoop env.encode QUALITY_START 4).2 = none)) :
    (compressAndOptimizeImage env file).1.blob = BlobV.orig ∧
    (compressAndOptimizeImage env file).1.ratio = 1 ∧
    ((compressAndOptimizeImage env file).1.error).isSome = true := by
  rcases hfail with hdec | ⟨w, h, hdec, hskip, hloop⟩
  · simp [compressAndOptimizeImage, himg, hgif, hdec]
  · rcases hE : encodeLoop env.encode QUALITY_START 4 with ⟨n, res⟩
    have hres : res = none := by rw [hE] at hloop; exact hloop
    subst hres
    have hskip' : ¬((w ≤ MAX_LONG_EDGE ∧ h ≤ MAX_LONG_EDGE) ∧
        file.size ≤ TARGET_MAX_BYTES) := by
      intro hc
      exact hskip ⟨max_le hc.1.1 hc.1.2, hc.2⟩
    simp [compressAndOptimizeImage, himg, hgif, hdec, hskip', hE]

/-- Witness for C3: a PNG whose decode fails on both paths. -/
theorem c3_failure_fallback_witness :
    (compressAndOptimizeImage ⟨none, fun _ => none⟩
        ⟨"image/png", "broken.png", 999⟩).1.blob = BlobV.orig ∧
    (compressAndOptimizeImage ⟨none, fun _ => none⟩
        ⟨"image/png", "broken.png", 999⟩).1.ratio = 1 ∧
    ((compressAndOptimizeImage ⟨none, fun _ => none⟩
        ⟨"image/png", "broken.png", 999⟩).1.error).isSome = true :=
  c3_failure_fallback _ _ (by decide) (by decide) (Or.inl rfl)

/-- Claim C4: while an upload attempt is in flight
(`isProcessingUpload.current` is set), a second `processFiles` call is
dropped as a no-op: the state is unchanged and the side-effect trace is
empty, so no validation, compression, storage write or database write is
started. -/
theorem c4_single_flight (env : PEnv) (s : AppState) (files : List ImgFile)
    (hbusy : s.isProcessingUpload = true) :
    processFiles env s files = (s, []) := by
  simp [processFiles, hbusy]

/-- Witness for C4: a concrete busy state and a healthy environment. -/
theorem c4_single_flight_witness :
    processFiles
        ⟨⟨true, true⟩, false, false, false, false, true, true, true⟩
        ⟨true⟩ [⟨"image/png", "cake.png", 1000, 300, 300⟩]
      = (⟨true⟩, []) :=
  c4_single_flight _ _ _ rfl

/-! ### Lemmas about the polling loop -/

/-- If reads `a, ..., N-1` find no data and read `N` finds a price, the
loop starting at read `a` with fuel at least `N - a` stops exactly at
read `N` with the success payload. -/
lemma pollGo_price (read : ℕ → ReadOutcome) (v : ℤ) :
    ∀ rem a N, a ≤ N → N ≤ a + rem →
      (∀ k, a ≤ k → k < N → read k = ReadOutcome.noData) →
      read N = ReadOutcome.price v →
      pollGo read a rem = (N, ⟨true, false, "complete", some v⟩) := by
  intro rem
  induction rem with
  | zero =>
    intro a N h1 h2 _hpre hN
    have hEq : N = a := by omega
    subst hEq
    unfold pollGo
    rw [hN]
  | succ rem ih =>
    intro a N h1 h2 hpre hN
    by_cases hEq : a = N
    · subst hEq
      unfold pollGo
      rw [hN]
    · have ha : read a = ReadOutcome.noData := hpre a le_rfl (by omega)
      unfold pollGo
      rw [ha]
      exact ih (a + 1) N (by omega) (by omega)
        (fun k hk1 hk2 => hpre k (by omega) hk2) hN

/-- If every read from `a` through `a + rem` finds no data, the loop
starting at read `a` with fuel `rem` exhausts its budget at read
`a + rem` and surfaces the needs-refresh payload in state complete. -/
lemma pollGo_exhaust (read : ℕ → ReadOutcome) :
    ∀ rem a, (∀ k, a ≤ k → k ≤ a + rem → read k = ReadOutcome.noData) →
      pollGo read a rem = (a + rem, ⟨false, true, "complete", none⟩) := by
  intro rem
  induction rem with
  | zero =>
    intro a hall
    unfold pollGo
    rw [hall a le_rfl (by omega)]
    simp
  | succ rem ih =>
    intro a hall
    unfold pollGo
    rw [hall a le_rfl (by omega)]
    have hrec := ih (a + 1) (fun k hk1 hk2 => hall k (by omega) (by omega))
    have hplus : a + 1 + rem = a + (rem + 1) := by omega
    rw [hplus] at hrec
    exact hrec

/-- Claim C5: the first read of a polling run fires 5 s after start and
each later read 5 s after the previous one; if `priceaddon` is non-null
on read `N` with `N ≤ 8` (and null before), polling ends with
`hasRealData = true` after exactly `N` reads; if it stays null for all 8
reads, polling ends after exactly 8 reads (no 9th is scheduled) with
`needsRefresh = true` and processing state `complete`. -/
theorem c5_poller_spec :
    (∀ (read : ℕ → ReadOutcome) (N : ℕ) (v : ℤ),
        1 ≤ N → N ≤ maxAttempts →
        (∀ k, 1 ≤ k → k < N → read k = ReadOutcome.noData) →
        read N = ReadOutcome.price v →
        pollRun read = (N, ⟨true, false, "complete", some v⟩)) ∧
    (∀ read : ℕ → ReadOutcome,
        (∀ k, 1 ≤ k → k ≤ maxAttempts → read k = ReadOutcome.noData) →
        pollRun read = (maxAttempts, ⟨false, true, "complete", none⟩)) ∧
    (∀ n, readTime n = POLL_DELAY_MS * n) := by
  refine ⟨?_, ?_, ?_⟩
  · intro read N v h1 h8 hpre hN
    exact pollGo_price read v (maxAttempts - 1) 1 N h1
      (by unfold maxAttempts at *; omega) hpre hN
  · intro read hall
    have h := pollGo_exhaust read (maxAttempts - 1) 1
      (fun k hk1 hk2 => hall k hk1 (by unfold maxAttempts at *; omega))
    unfold pollRun
    rw [h]
    congr 1
  · intro n
    induction n with
    | zero => simp [readTime]
    | succ n ih => simp [readTime, ih]; ring

/-- Witness for C5: the spec's own end-to-end scenario (null at 5 s,
`priceaddon = 150` at 10 s, success after exactly 2 reads), the all-null
run, and the read-time formula at read 3. -/
theorem c5_poller_spec_witness :
    pollRun (fun k => if k = 2 then ReadOutcome.price 150 else ReadOutcome.noData)
        = (2, ⟨true, false, "complete", some 150⟩) ∧
    pollRun (fun _ => ReadOutcome.noData)
        = (maxAttempts, ⟨false, true, "complete", none⟩) ∧
    readTime 3 = POLL_DELAY_MS * 3 :=
  ⟨c5_poller_spec.1 _ 2 150 (by omega) (by decide)
      (fun k hk1 hk2 => by
        have hEq : k = 1 := by omega
        subst hEq
        rfl) rfl,
   c5_poller_spec.2.1 _ (fun k _ _ => rfl),
   c5_poller_spec.2.2 3⟩

/-- Claim C6 is a code bug: the unmount cleanup effect aborts the search
and upload controllers and resets the refs, but no `clearTimeout` exists
anywhere in the component and `pollForData` consults no cancellation
flag.  Evaluated at a state with one pending poll timer (and everything
else active) whose record stays null: teardown leaves the timer pending,
and letting it fire issues all 8 remaining reads after the view is
dismissed — the claimed "no poll read after teardown" fails. -/
theorem c6_stale_poll_fires :
    (unmountCleanup ⟨true, true, true, some "cake", some 1⟩).pendingPollTimer
        = some 1 ∧
    readsIssuedAfterTeardown (fun _ => ReadOutcome.noData)
        ⟨true, true, true, some "cake", some 1⟩ = 8 := by
  exact ⟨rfl, by decide⟩

/-- Counterexample to C7 as stated: on the GIF pass-through path the
result carries no `originalSize` and no `compressedSize` field, so the
output does not "always report the original byte size [and] the achieved
byte size" — only the ratio is always present. -/
theorem c7_cex_skip_omits_sizes :
    (compressAndOptimizeImage ⟨some (100, 100), fun _ => some ⟨100, "webp"⟩⟩
        ⟨"image/gif", "party.gif", 5000⟩).1.originalSize = none ∧
    (compressAndOptimizeImage ⟨some (100, 100), fun _ => some ⟨100, "webp"⟩⟩
        ⟨"image/gif", "party.gif", 5000⟩).1.compressedSize = none := by
  exact ⟨by decide, by decide⟩

/-- Claim C7, amended: the reported ratio is always nonnegative; on the
full compression path the result reports the original byte size, the
achieved byte size, ratio = originalSize / compressedSize, and both
dimension pairs; on every path that omits the dimensions (skip and
fallback) the blob is the original, the ratio is 1, and the size fields
are omitted as well. -/
theorem c7_metrics_reporting :
    (∀ env file, 0 ≤ (compressAndOptimizeImage env file).1.ratio) ∧
    (∀ (env : Env) (file : JFile) (w h : ℕ) (r : EncRes) (q : ℕ),
        env.decode = some (w, h) →
        (encodeLoop env.encode QUALITY_START 4).2 = some (r, q) →
        strStartsWith file.type "image/" = true →
        file.type ≠ "image/gif" →
        ¬(max w h ≤ MAX_LONG_EDGE ∧ file.size ≤ TARGET_MAX_BYTES) →
        (compressAndOptimizeImage env file).1.originalSize = some file.size ∧
        (compressAndOptimizeImage env file).1.compressedSize = some r.size ∧
        (compressAndOptimizeImage env file).1.ratio
          = (file.size : ℚ) / (r.size : ℚ) ∧
        (compressAndOptimizeImage env file).1.dimensions
          = some (dstDim w (max w h), dstDim h (max w h)) ∧
        (compressAndOptimizeImage env file).1.originalDimensions = some (w, h)) ∧
    (∀ env file, (compressAndOptimizeImage env file).1.dimensions = none →
        (compressAndOptimizeImage env file).1.blob = BlobV.orig ∧
        (compressAndOptimizeImage env file).1.ratio = 1 ∧
        (compressAndOptimizeImage env file).1.originalSize = none ∧
        (compressAndOptimizeImage env file).1.compressedSize = none) := by
  refine ⟨?_, ?_, ?_⟩
  · intro env file
    unfold compressAndOptimizeImage
    split
    · simp
    split
    · simp
    rcases hdec : env.decode with _ | ⟨w, h⟩ <;> simp only [hdec]
    · simp
    split
    · simp
    rcases hE : encodeLoop env.encode QUALITY_START 4 with ⟨n, res⟩
    cases res with
    | none => simp
    | some rq =>
      simp only []
      positivity
  · intro env file w h r q hdec hE himg hgif hskip
    have hskip' : ¬((w ≤ MAX_LONG_EDGE ∧ h ≤ MAX_LONG_EDGE) ∧
        file.size ≤ TARGET_MAX_BYTES) := by
      intro hc
      exact hskip ⟨max_le hc.1.1 hc.1.2, hc.2⟩
    rcases hE' : encodeLoop env.encode QUALITY_START 4 with ⟨n, res⟩
    have hres : res = some (r, q) := by rw [hE'] at hE; exact hE
    subst hres
    simp [compressAndOptimizeImage, himg, hgif, hdec, hskip', hE']
  · intro env file hdim
    revert hdim
    unfold compressAndOptimizeImage
    split
    · simp
    split
    · simp
    rcases hdec : env.decode with _ | ⟨w, h⟩ <;> simp only [hdec]
    · simp
    split
    · simp
    rcases hE : encodeLoop env.encode QUALITY_START 4 with ⟨n, res⟩
    cases res with
    | none => simp
    | some rq => simp

/-- Witness for C7 (amended) on a 3000 by 2000, 4 MB JPEG that encodes to
800,000 bytes on the first attempt. -/
theorem c7_metrics_reporting_witness :
    0 ≤ (compressAndOptimizeImage
        ⟨some (3000, 2000), fun _ => some ⟨800000, "webp"⟩⟩
        ⟨"image/jpeg", "photo.jpg", 4000000⟩).1.ratio ∧
    (compressAndOptimizeImage ⟨some (3000, 2000), fun _ => some ⟨800000, "webp"⟩⟩
        ⟨"image/jpeg", "photo.jpg", 4000000⟩).1.originalSize = some 4000000 ∧
    (compressAndOptimizeImage ⟨some (3000, 2000), fun _ => some ⟨800000, "webp"⟩⟩
        ⟨"image/jpeg", "photo.jpg", 4000000⟩).1.compressedSize = some 800000 ∧
    (compressAndOptimizeImage ⟨some (3000, 2000), fun _ => some ⟨800000, "webp"⟩⟩
        ⟨"image/jpeg", "photo.jpg", 4000000⟩).1.ratio
      = ((4000000 : ℕ) : ℚ) / ((800000 : ℕ) : ℚ) ∧
    (compressAndOptimizeImage ⟨some (100, 100), fun _ => some ⟨100, "webp"⟩⟩
        ⟨"image/gif", "anim.gif", 77⟩).1.ratio = 1 :=
  ⟨c7_metrics_reporting.1 _ _,
   (c7_metrics_reporting.2.1 _ _ 3000 2000 ⟨800000, "webp"⟩ 85 rfl (by decide)
      (by decide) (by decide) (by decide)).1,
   (c7_metrics_reporting.2.1 _ _ 3000 2000 ⟨800000, "webp"⟩ 85 rfl (by decide)
      (by decide) (by decide) (by decide)).2.1,
   (c7_metrics_reporting.2.1 _ _ 3000 2000 ⟨800000, "webp"⟩ 85 rfl (by decide)
      (by decide) (by decide) (by decide)).2.2.1,
   (c7_metrics_reporting.2.2 _ _ (by decide)).2.1⟩

/-- Claim C8: with a readable file, validation passes exactly when the
media type starts with `image/`, the byte size is at most 10 MB, and both
decoded dimensions are at least 200 px; a 5 MB 150 by 150 PNG is rejected
with the too-small error while the same file at 300 by 300 passes; and a
run whose file fails validation surfaces the error and performs no
compression, storage or database action. -/
theorem c8_validation_spec :
    (∀ file : ImgFile,
        validateFile ⟨true, true⟩ file = none ↔
          (strStartsWith file.type "image/" = true ∧
            file.size ≤ MAX_SIZE_MB * 1024 * 1024 ∧
            MIN_DIMENSION ≤ file.width ∧ MIN_DIMENSION ≤ file.height)) ∧
    (validateFile ⟨true, true⟩ ⟨"image/png", "cake.png", 5 * 1024 * 1024, 150, 150⟩
        = some "Image is too small. Minimum dimensions are 200x200px.") ∧
    (validateFile ⟨true, true⟩ ⟨"image/png", "cake.png", 5 * 1024 * 1024, 300, 300⟩
        = none) ∧
    (∀ (env : PEnv) (s : AppState) (files : List ImgFile) (file : ImgFile)
        (msg : String),
        s.isProcessingUpload = false →
        files.head? = some file →
        validateFile env.venv file = some msg →
        (processFiles env s files).2
          = [Action.validateA, Action.setErrorA msg]) := by
  refine ⟨?_, by decide, by decide, ?_⟩
  · intro file
    unfold validateFile
    by_cases h1 : strStartsWith file.type "image/" = false
    · rw [if_pos h1]
      constructor
      · intro hc
        exact absurd hc (by simp)
      · rintro ⟨hty, -, -, -⟩
        rw [hty] at h1
        exact absurd h1 (by simp)
    · rw [if_neg h1]
      have hty : strStartsWith file.type "image/" = true := by
        cases hb : strStartsWith file.type "image/" with
        | false => exact absurd hb h1
        | true => rfl
      by_cases h2 : MAX_SIZE_MB * 1024 * 1024 < file.size
      · rw [if_pos h2]
        constructor
        · intro hc
          exact absurd hc (by simp)
        · rintro ⟨-, hsz, -, -⟩
          omega
      · rw [if_neg h2,
          if_neg (by simp : ¬((⟨true, true⟩ : VEnv).readerOk = false)),
          if_neg (by simp : ¬((⟨true, true⟩ : VEnv).imageOk = false))]
        by_cases h5 : file.width < MIN_DIMENSION ∨ file.height < MIN_DIMENSION
        · rw [if_pos h5]
          constructor
          · intro hc
            exact absurd hc (by simp)
          · rintro ⟨-, -, hw, hh⟩
            omega
        · rw [if_neg h5]
          exact ⟨fun _ => ⟨hty, by omega, by omega, by omega⟩, fun _ => rfl⟩
  · intro env s files file msg hflag hhead hval
    simp [processFiles, hflag, hhead, hval]

/-- Witness for C8: the pass characterization at a concrete good file and
the no-side-effect rejection at the 150 by 150 file. -/
theorem c8_validation_spec_witness :
    (validateFile ⟨true, true⟩ ⟨"image/png", "ok.png", 1000, 300, 300⟩ = none ↔
      (strStartsWith "image/png" "image/" = true ∧
        (1000 : ℕ) ≤ MAX_SIZE_MB * 1024 * 1024 ∧
        MIN_DIMENSION ≤ 300 ∧ MIN_DIMENSION ≤ (300 : ℕ))) ∧
    (processFiles ⟨⟨true, true⟩, false, false, false, false, true, true, true⟩
        ⟨false⟩ [⟨"image/png", "tiny.png", 5 * 1024 * 1024, 150, 150⟩]).2
      = [Action.validateA,
         Action.setErrorA "Image is too small. Minimum dimensions are 200x200px."] :=
  ⟨c8_validation_spec.1 _,
   c8_validation_spec.2.2.2 _ _ _ ⟨"image/png", "tiny.png", 5 * 1024 * 1024, 150, 150⟩
      _ rfl rfl (by decide)⟩

/-- Claim C9: every `processFiles` invocation that passes the
single-flight guard ends with `isProcessingUpload` false again — on the
empty-file return, the validation-failure return, each cancellation
check, the catch path and the success path — so the guard can never stay
stuck. -/
theorem c9_flag_always_reset (env : PEnv) (files : List ImgFile) :
    (processFiles env ⟨false⟩ files).1.isProcessingUpload = false := by
  unfold processFiles
  simp only [show (⟨false⟩ : AppState).isProcessingUpload = false from rfl,
    if_false, Bool.false_eq_true]
  cases hhead : files.head? with
  | none => simp
  | some file =>
    simp only []
    cases hval : validateFile env.venv file with
    | some msg => rfl
    | none => split_ifs <;> rfl

/-- Counterexample to C10 as stated: for a non-image file named `DATA`
(no dot, hence no extension), the returned extension is the lowercased
whole name `"data"`, not the claimed default `"bin"`. -/
theorem c10_cex_dotless_name :
    (compressAndOptimizeImage ⟨none, fun _ => none⟩
        ⟨"text/plain", "DATA", 123⟩).1.ext = "data" ∧
    ("data" : String) ≠ "bin" := by
  exact ⟨by decide, by decide⟩

/-- Claim C10, amended: a non-image file is passed through unchanged with
ratio 1, no error and no encode attempt; its extension is the lowercased
last dot-separated segment of the filename — the whole name when there is
no dot — with `"bin"` used only when that segment is empty (empty
filename or filename ending in a dot). -/
theorem c10_nonimage_passthrough :
    (∀ env file, strStartsWith file.type "image/" = false →
        (compressAndOptimizeImage env file).1.blob = BlobV.orig ∧
        (compressAndOptimizeImage env file).1.ratio = 1 ∧
        (compressAndOptimizeImage env file).1.error = none ∧
        (compressAndOptimizeImage env file).2 = 0 ∧
        (compressAndOptimizeImage env file).1.ext = extFrom file.name "bin") ∧
    (∀ name dflt : String, lastD (splitDot name.data) = [] →
        extFrom name dflt = String.mk (dflt.data.map Char.toLower)) ∧
    (∀ (name dflt : String) (seg : List Char),
        lastD (splitDot name.data) = seg → seg ≠ [] →
        extFrom name dflt = String.mk (seg.map Char.toLower)) := by
  refine ⟨?_, ?_, ?_⟩
  · intro env file himg
    simp [compressAndOptimizeImage, himg]
  · intro name dflt hempty
    simp [extFrom, hempty]
  · intro name dflt seg hseg hne
    simp [extFrom, hseg, hne]

/-- Witness for C10 (amended) at a dotless uppercase name and at a name
ending in a dot. -/
theorem c10_nonimage_passthrough_witness :
    (compressAndOptimizeImage ⟨none, fun _ => none⟩
        ⟨"application/pdf", "Report", 10⟩).1.blob = BlobV.orig ∧
    (compressAndOptimizeImage ⟨none, fun _ => none⟩
        ⟨"application/pdf", "Report", 10⟩).1.ext = extFrom "Report" "bin" ∧
    extFrom "weird." "bin" = String.mk ("bin".data.map Char.toLower) ∧
    extFrom "DATA" "bin" = String.mk (['D', 'A', 'T', 'A'].map Char.toLower) :=
  ⟨(c10_nonimage_passthrough.1 _ _ (by decide)).1,
   (c10_nonimage_passthrough.1 _ _ (by decide)).2.2.2.2,
   c10_nonimage_passthrough.2.1 "weird." "bin" (by decide),
   c10_nonimage_passthrough.2.2 "DATA" "bin" ['D', 'A', 'T', 'A'] (by decide)
      (by decide)⟩

end CakeGenie
